import Mathlib

/-!
Shallow embedding of the run/config/status/trace execution-ledger core
(src/core/src/run.rs) of the dust repository, together with theorems
settling the specification claims about it.

Modelling conventions:
- Rust `HashMap<String, Value>` is modelled as an association list with
  unique keys; lookup is first-match (`List.lookup`).
- `serde_json::Value` is modelled by the inductive `Value` below; its
  number representation mirrors serde_json's `N::PosInt / N::NegInt /
  N::Float` tagging (`negInt` holds strictly negative integers, `float`
  abstracts the floating payload away since `as_u64` never inspects it).
- `usize`/`u64` values are modelled as `Nat` (64-bit, no overflow in the
  operations under study).
- Fallible operations return `Except`; the external store collaborators
  of `cmd_inspect` are passed in as explicit arguments (their results),
  and terminal printing is modelled as an emitted list of events.
-/

/-- BlockType mirrors the external enumeration `BlockType`
{Input, Data, Code, LLM, Map, Reduce} consumed by run.rs. -/
inductive BlockType where
  | input
  | data
  | code
  | llm
  | map
  | reduce
deriving DecidableEq, Repr

/-- Number payload of a JSON value, mirroring serde_json's tagging:
`posInt n` is a non-negative integer, `negInt i` a strictly negative
integer, `float` a floating-point number (payload abstracted: `as_u64`
rejects it without looking at it). -/
inductive JNumber where
  | posInt : Nat → JNumber
  | negInt : Int → JNumber
  | float : JNumber

/-- Structured JSON value (`serde_json::Value`): null, booleans, numbers,
strings, arrays and string-keyed objects. -/
inductive Value where
  | null : Value
  | bool : Bool → Value
  | number : JNumber → Value
  | str : String → Value
  | arr : List Value → Value
  | obj : List (String × Value) → Value

/-- Value.get mirrors `serde_json::Value::get` with a string key: a key
lookup on an object, `none` on every other variant. -/
def Value.get (v : Value) (key : String) : Option Value :=
  match v with
  | .obj kvs => kvs.lookup key
  | _ => none

/-- Value.as_u64 mirrors `serde_json::Value::as_u64`: `some n` exactly
when the value is a number stored as a non-negative integer. -/
def Value.as_u64 (v : Value) : Option Nat :=
  match v with
  | .number (.posInt n) => some n
  | _ => none

/-- RunConfig mirrors `RunConfig { blocks: HashMap<String, Value> }`. -/
structure RunConfig where
  blocks : List (String × Value)

/-- RunConfig::config_for_block — lookup of a block's configuration blob
by block name. -/
def RunConfig.config_for_block (c : RunConfig) (name : String) : Option Value :=
  c.blocks.lookup name

/-- RunConfig::concurrency_for_block — returns the `concurrency` field of
the block's configuration blob when that field is a non-negative integer,
and otherwise a fixed per-block-type default. -/
def RunConfig.concurrency_for_block (c : RunConfig) (block_type : BlockType)
    (name : String) : Nat :=
  let dflt : Nat :=
    match block_type with
    | .input => 64
    | .data => 64
    | .code => 64
    | .llm => 8
    | .map => 64
    | .reduce => 64
  match c.config_for_block name with
  | some block_config =>
    match block_config.get "concurrency" with
    | some concurrency =>
      match concurrency.as_u64 with
      | some concurrency => concurrency
      | none => dflt
    | none => dflt
  | none => dflt

/-- Status mirrors `enum Status { Running, Succeeded, Errored }`. -/
inductive Status where
  | running
  | succeeded
  | errored
deriving DecidableEq, Repr

/-- Status::to_string (the `ToString` impl). -/
def Status.to_string (s : Status) : String :=
  match s with
  | .running => "running"
  | .succeeded => "succeeded"
  | .errored => "errored"

/-- ParseError mirrors `utils::ParseError`, carrying a message. -/
structure ParseError where
  message : String
deriving DecidableEq, Repr

/-- ParseError::with_message. -/
def ParseError.with_message (m : String) : ParseError :=
  { message := m }

/-- Status::from_str (the `FromStr` impl): recognizes exactly the three
rendered tokens and fails with a parse error on anything else. -/
def Status.from_str (s : String) : Except ParseError Status :=
  if s = "running" then .ok .running
  else if s = "succeeded" then .ok .succeeded
  else if s = "errored" then .ok .errored
  else .error (ParseError.with_message "Unknown Status")

/-- BlockStatus mirrors the struct of the same name: per-(block type,
name) aggregate status and counters. -/
structure BlockStatus where
  block_type : BlockType
  name : String
  status : Status
  success_count : Nat
  error_count : Nat
deriving DecidableEq, Repr

/-- Key predicate of the upsert in RunStatus::set_block_status: `s` has
the same (block_type, name) identity key as `status`. -/
def BlockStatus.same_key (s status : BlockStatus) : Bool :=
  decide (s.block_type = status.block_type ∧ s.name = status.name)

/-- RunStatus mirrors `RunStatus { run: Status, blocks: Vec<BlockStatus> }`. -/
structure RunStatus where
  run : Status
  blocks : List BlockStatus
deriving DecidableEq, Repr

/-- RunStatus::set_block_status — position-based upsert keyed by
(block_type, name): replace in place at the first matching position,
else push to the end. -/
def RunStatus.set_block_status (rs : RunStatus) (status : BlockStatus) : RunStatus :=
  match rs.blocks.findIdx? (fun s => s.same_key status) with
  | some i => { rs with blocks := rs.blocks.set i status }
  | none => { rs with blocks := rs.blocks ++ [status] }

/-- RunStatus::set_run_status — unconditional overwrite of the run-level
status. -/
def RunStatus.set_run_status (rs : RunStatus) (status : Status) : RunStatus :=
  { rs with run := status }

/-- RunStatus::run_status — read accessor for the run-level status. -/
def RunStatus.run_status (rs : RunStatus) : Status :=
  rs.run

/-- BlockExecution — outcome of one block invocation on one lane: an
optional structured value and an optional error message. -/
structure BlockExecution where
  value : Option Value
  error : Option String

/-- Run mirrors the aggregate root struct `Run`; `created` is the `u64`
timestamp. The trace matrix `traces` is the block → input → lane nesting
from the source. -/
structure Run where
  run_id : String
  created : Nat
  app_hash : String
  config : RunConfig
  status : RunStatus
  traces : List ((BlockType × String) × List (List BlockExecution))

/-- Run::new. The fresh identifier (`utils::new_id()`) and the current
timestamp (`utils::now()`) come from external collaborators, so they are
taken here as arguments `fresh_run_id` and `now`. -/
def Run.new (fresh_run_id : String) (now : Nat) (app_hash : String)
    (config : RunConfig) : Run :=
  { run_id := fresh_run_id
    created := now
    app_hash := app_hash
    config := config
    status := { run := .running, blocks := [] }
    traces := [] }

/-- Run::new_from_store — verbatim reconstruction from persisted fields. -/
def Run.new_from_store (run_id : String) (created : Nat) (app_hash : String)
    (config : RunConfig) (status : RunStatus)
    (traces : List ((BlockType × String) × List (List BlockExecution))) : Run :=
  { run_id := run_id
    created := created
    app_hash := app_hash
    config := config
    status := status
    traces := traces }

/-- Run::set_status — bulk replace of the ledger. -/
def Run.set_status (r : Run) (status : RunStatus) : Run :=
  { r with status := status }

/-- Run::set_run_status — overwrite of the run-level status field only. -/
def Run.set_run_status (r : Run) (status : Status) : Run :=
  { r with status := { r.status with run := status } }

/-- Run::set_block_status — delegates the upsert to the status ledger. -/
def Run.set_block_status (r : Run) (status : BlockStatus) : Run :=
  { r with status := r.status.set_block_status status }

/-- Error outcomes of the inspect read path, structured by class: a
propagated store fault, the "No run found, the app was never executed"
error, the "Run with id .. not found" error, and the "Block .. not found
in run .." error (carrying the fields the source formats into the
message). -/
inductive InspectError where
  | storeFault : String → InspectError
  | noRunFound : InspectError
  | runNotFound : String → InspectError
  | blockNotFound : BlockType → String → String → InspectError
deriving DecidableEq, Repr

/-- One line of inspect output: the per-execution header
(input_idx/len, map_idx/len), a rendered value, or a reported error. -/
inductive InspectEvent where
  | header : Nat → Nat → Nat → Nat → InspectEvent
  | value : Value → InspectEvent
  | errorMsg : String → InspectEvent

/-- Output emitted for a single BlockExecution lane: the header line,
then the value when present, then the error when present. -/
def laneEvents (input_idx total_inputs map_idx total_maps : Nat)
    (execution : BlockExecution) : List InspectEvent :=
  [.header input_idx total_inputs map_idx total_maps]
    ++ (match execution.value with | some v => [.value v] | none => [])
    ++ (match execution.error with | some e => [.errorMsg e] | none => [])

/-- Output emitted for one input index of a matching trace entry: the
enumerated lanes of that input. -/
def inputEvents (input_idx total_inputs : Nat)
    (map_executions : List BlockExecution) : List InspectEvent :=
  map_executions.enum.flatMap
    (fun p => laneEvents input_idx total_inputs p.1 map_executions.length p.2)

/-- Output emitted for a matching trace entry: the enumerated inputs. -/
def entryEvents (input_executions : List (List BlockExecution)) : List InspectEvent :=
  input_executions.enum.flatMap
    (fun p => inputEvents p.1 input_executions.length p.2)

/-- Output of the trace scan of cmd_inspect: every entry whose key
matches the requested (block_type, block_name) contributes its events in
order; other entries contribute nothing. -/
def traceEvents (block_type : BlockType) (block_name : String)
    (traces : List ((BlockType × String) × List (List BlockExecution))) :
    List InspectEvent :=
  traces.flatMap
    (fun e => if e.1.2 = block_name ∧ e.1.1 = block_type then entryEvents e.2 else [])

/-- The `found` flag of cmd_inspect: set exactly when some execution of a
matching entry was visited, i.e. some matching entry has an input with at
least one lane. -/
def foundFlag (block_type : BlockType) (block_name : String)
    (traces : List ((BlockType × String) × List (List BlockExecution))) : Bool :=
  traces.any (fun e =>
    decide (e.1.2 = block_name ∧ e.1.1 = block_type)
      && e.2.any (fun map_executions => !map_executions.isEmpty))

/-- Trace-scanning tail of cmd_inspect (run.rs lines 242-283) on an
already loaded run: emit the events of matching entries, then fail with
the block-not-found error when no execution was visited. -/
def inspectRunTraces (block_type : BlockType) (block_name run_id : String)
    (traces : List ((BlockType × String) × List (List BlockExecution))) :
    Except InspectError (List InspectEvent) :=
  if foundFlag block_type block_name traces then
    .ok (traceEvents block_type block_name traces)
  else
    .error (.blockNotFound block_type block_name run_id)

/-- Resolution of the "latest" run id (run.rs lines 222-228): on the
literal id "latest", consult the store's latest_run_id result — a store
fault propagates, `none` becomes the "never executed" error, `some rid`
resolves to `rid`; any other id resolves to itself. -/
def resolve_latest (run_id : String)
    (latest_run_id : Except String (Option String)) : Except InspectError String :=
  if run_id = "latest" then
    match latest_run_id with
    | .error e => .error (.storeFault e)
    | .ok none => .error .noRunFound
    | .ok (some rid) => .ok rid
  else .ok run_id

/-- cmd_inspect — the read path: resolve the run id, load the run from
the store (the store's answer is passed in as the function
`load_run`), and scan its trace matrix. -/
def cmd_inspect (run_id : String) (block_type : BlockType) (block_name : String)
    (latest_run_id : Except String (Option String))
    (load_run : String → Except String (Option Run)) :
    Except InspectError (List InspectEvent) :=
  match resolve_latest run_id latest_run_id with
  | .error e => .error e
  | .ok rid =>
    match load_run rid with
    | .error e => .error (.storeFault e)
    | .ok none => .error (.runNotFound rid)
    | .ok (some run) => inspectRunTraces block_type block_name rid run.traces

/-- Specification predicate: some trace entry keyed by the requested
(block_type, block_name) holds at least one execution lane. -/
def hasMatchingExec (block_type : BlockType) (block_name : String)
    (traces : List ((BlockType × String) × List (List BlockExecution))) : Prop :=
  ∃ e ∈ traces, e.1 = (block_type, block_name) ∧ ∃ ie ∈ e.2, ie ≠ []

/-- Specification predicate of claim C4: if any ledger entry is Errored
then the run-level status is Errored. -/
def erroredInv (rs : RunStatus) : Prop :=
  (∃ b ∈ rs.blocks, b.status = Status.errored) → rs.run = Status.errored

instance (rs : RunStatus) : Decidable (erroredInv rs) := by
  unfold erroredInv
  infer_instance

/-- Generic first-match upsert on a list: replace the first element
satisfying p in place, else append at the end. This is extensionally the
findIdx?/set formulation used by the ledger (proved below), in a shape
convenient for induction. -/
def listUpsert {α : Type} (p : α → Bool) (b : α) : List α → List α
  | [] => [b]
  | x :: xs => if p x then b :: xs else x :: listUpsert p b xs

/-! ### Helper lemmas -/

/-- The ledger upsert never touches the run-level status field. -/
lemma set_block_status_run (rs : RunStatus) (b : BlockStatus) :
    (rs.set_block_status b).run = rs.run := by
  unfold RunStatus.set_block_status
  cases rs.blocks.findIdx? (fun s => s.same_key b) <;> rfl

/-! ### Claim theorems -/

/-- C1: with no config entry for the name, concurrency_for_block returns
the fixed per-block-type default (Input 64, Data 64, Code 64, LLM 8,
Map 64, Reduce 64); with an entry carrying a non-negative integer
"concurrency" field N it returns N regardless of block type. -/
theorem concurrency_for_block_spec (bt : BlockType) (name : String) (cfg : RunConfig) :
    (cfg.config_for_block name = none →
      cfg.concurrency_for_block bt name =
        (match bt with
         | .input => 64
         | .data => 64
         | .code => 64
         | .llm => 8
         | .map => 64
         | .reduce => 64)) ∧
    (∀ v n, cfg.config_for_block name = some v →
      v.get "concurrency" = some (Value.number (JNumber.posInt n)) →
      cfg.concurrency_for_block bt name = n) := by
  constructor
  · intro h
    simp [RunConfig.concurrency_for_block, h]
  · intro v n hv hc
    simp [RunConfig.concurrency_for_block, hv, hc, Value.as_u64]

/-- C1 witness: the spec's worked example, a "summarize" entry with
concurrency 3 and an empty config for an LLM block. -/
theorem concurrency_for_block_spec_witness :
    RunConfig.concurrency_for_block
      ⟨[("summarize", Value.obj [("concurrency", Value.number (JNumber.posInt 3))])]⟩
      BlockType.llm "summarize" = 3 ∧
    RunConfig.concurrency_for_block ⟨[]⟩ BlockType.llm "summarize" = 8 :=
  ⟨(concurrency_for_block_spec BlockType.llm "summarize" _).2
      (Value.obj [("concurrency", Value.number (JNumber.posInt 3))]) 3 rfl rfl,
   (concurrency_for_block_spec BlockType.llm "summarize" ⟨[]⟩).1 rfl⟩

/-- C10: a config entry whose "concurrency" field is absent or not a
non-negative integer yields the per-block-type default, silently. -/
theorem concurrency_default_on_malformed (bt : BlockType) (name : String)
    (cfg : RunConfig) (v : Value) (hv : cfg.config_for_block name = some v)
    (hbad : v.get "concurrency" = none ∨
      ∃ w, v.get "concurrency" = some w ∧ w.as_u64 = none) :
    cfg.concurrency_for_block bt name =
      (match bt with
       | .input => 64
       | .data => 64
       | .code => 64
       | .llm => 8
       | .map => 64
       | .reduce => 64) := by
  rcases hbad with h | ⟨w, hw, hwu⟩
  · simp [RunConfig.concurrency_for_block, hv, h]
  · simp [RunConfig.concurrency_for_block, hv, hw, hwu]

/-- C10 witness: an entry whose concurrency field is the negative
integer -1 falls back to the LLM default 8. -/
theorem concurrency_default_on_malformed_witness :
    RunConfig.concurrency_for_block
      ⟨[("b", Value.obj [("concurrency", Value.number (JNumber.negInt (-1)))])]⟩
      BlockType.llm "b" = 8 :=
  concurrency_default_on_malformed BlockType.llm "b" _ _ rfl
    (Or.inr ⟨Value.number (JNumber.negInt (-1)), rfl, rfl⟩)

/-- C5: new_from_store reconstructs a Run whose accessors return the
given six values unchanged. -/
theorem new_from_store_roundtrip (run_id : String) (created : Nat)
    (app_hash : String) (config : RunConfig) (status : RunStatus)
    (traces : List ((BlockType × String) × List (List BlockExecution))) :
    (Run.new_from_store run_id created app_hash config status traces).run_id = run_id ∧
    (Run.new_from_store run_id created app_hash config status traces).created = created ∧
    (Run.new_from_store run_id created app_hash config status traces).app_hash = app_hash ∧
    (Run.new_from_store run_id created app_hash config status traces).config = config ∧
    (Run.new_from_store run_id created app_hash config status traces).status = status ∧
    (Run.new_from_store run_id created app_hash config status traces).traces = traces :=
  ⟨rfl, rfl, rfl, rfl, rfl, rfl⟩

/-- C6: a freshly constructed Run is Running with an empty block-status
list and an empty trace matrix, and holds the given app_hash and config. -/
theorem run_new_fresh (fresh_run_id : String) (now : Nat) (app_hash : String)
    (config : RunConfig) :
    (Run.new fresh_run_id now app_hash config).status.run = Status.running ∧
    (Run.new fresh_run_id now app_hash config).status.blocks = [] ∧
    (Run.new fresh_run_id now app_hash config).traces = [] ∧
    (Run.new fresh_run_id now app_hash config).app_hash = app_hash ∧
    (Run.new fresh_run_id now app_hash config).config = config :=
  ⟨rfl, rfl, rfl, rfl, rfl⟩

/-- C7: rendering then parsing a Status is the identity, and parsing
succeeds exactly on the three rendered tokens, failing with the
"Unknown Status" parse error on every other string. -/
theorem status_render_parse :
    (∀ s : Status, Status.from_str s.to_string = Except.ok s) ∧
    (∀ x : String,
      ((∃ s, Status.from_str x = Except.ok s) ↔
        (x = "running" ∨ x = "succeeded" ∨ x = "errored")) ∧
      (¬(x = "running" ∨ x = "succeeded" ∨ x = "errored") →
        Status.from_str x = Except.error (ParseError.with_message "Unknown Status"))) := by
  constructor
  · intro s
    cases s <;> rfl
  · intro x
    unfold Status.from_str
    split_ifs with h1 h2 h3 <;> simp_all

/-- C7 witness: parsing the rendering of Running yields Running, and
parsing the token "bogus" fails with the Unknown Status error. -/
theorem status_render_parse_witness :
    Status.from_str (Status.to_string Status.running) = Except.ok Status.running ∧
    Status.from_str "bogus" = Except.error (ParseError.with_message "Unknown Status") :=
  ⟨status_render_parse.1 Status.running,
   (status_render_parse.2 "bogus").2 (by decide)⟩

/-- C8: asking cmd_inspect for "latest" when the store knows no run for
the project fails with the never-executed NotFound error, an error
distinct by construction from any propagated store fault; when the store
answers some id, inspection proceeds exactly as for that id. -/
theorem cmd_inspect_latest (bt : BlockType) (name : String)
    (load_run : String → Except String (Option Run)) :
    cmd_inspect "latest" bt name (Except.ok none) load_run =
      Except.error InspectError.noRunFound ∧
    (∀ e, InspectError.noRunFound ≠ InspectError.storeFault e) ∧
    (∀ rid, cmd_inspect "latest" bt name (Except.ok (some rid)) load_run =
      cmd_inspect rid bt name (Except.ok (some rid)) load_run) := by
  refine ⟨rfl, ?_, ?_⟩
  · intro e h
    exact InspectError.noConfusion h
  intro rid
  unfold cmd_inspect resolve_latest
  by_cases h : rid = "latest"
  · subst h
    rfl
  · simp [h]

/-- C9: set_block_status changes only the block-status list of a Run,
and set_run_status changes only the run-level status field. -/
theorem run_mutator_frames (r : Run) (b : BlockStatus) (s : Status) :
    ((r.set_block_status b).run_id = r.run_id ∧
     (r.set_block_status b).created = r.created ∧
     (r.set_block_status b).app_hash = r.app_hash ∧
     (r.set_block_status b).config = r.config ∧
     (r.set_block_status b).traces = r.traces ∧
     (r.set_block_status b).status.run = r.status.run) ∧
    ((r.set_run_status s).run_id = r.run_id ∧
     (r.set_run_status s).created = r.created ∧
     (r.set_run_status s).app_hash = r.app_hash ∧
     (r.set_run_status s).config = r.config ∧
     (r.set_run_status s).traces = r.traces ∧
     (r.set_run_status s).status.blocks = r.status.blocks) :=
  ⟨⟨rfl, rfl, rfl, rfl, rfl, set_block_status_run r.status b⟩,
   ⟨rfl, rfl, rfl, rfl, rfl, rfl⟩⟩

/-- An index returned by findIdx? is within bounds. -/
lemma findIdx?_some_lt {α : Type} {p : α → Bool} {l : List α} {i : Nat}
    (h : l.findIdx? p = some i) : i < l.length := by
  induction l generalizing i with
  | nil => simp [List.findIdx?] at h
  | cons x xs ih =>
    rw [List.findIdx?_cons] at h
    by_cases hx : p x
    · simp [hx] at h
      simp only [List.length_cons]
      omega
    · simp [hx] at h
      rcases h with ⟨j, hj, rfl⟩
      have := ih hj
      simp only [List.length_cons]
      omega

/-- The findIdx?/set formulation of the upsert agrees with listUpsert. -/
lemma upsert_eq {α : Type} (p : α → Bool) (b : α) (l : List α) :
    (match l.findIdx? p with
     | some i => l.set i b
     | none => l ++ [b]) = listUpsert p b l := by
  induction l with
  | nil => rfl
  | cons x xs ih =>
    rw [List.findIdx?_cons]
    by_cases hx : p x
    · simp [hx, listUpsert]
    · simp only [hx, Bool.false_eq_true, if_false, listUpsert]
      rw [List.findIdx?_succ]
      cases hfi : xs.findIdx? p with
      | some j =>
        rw [hfi] at ih
        show (x :: xs).set (j + 1) b = x :: listUpsert p b xs
        rw [List.set_cons_succ]
        exact congrArg (List.cons x) ih
      | none =>
        rw [hfi] at ih
        show x :: (xs ++ [b]) = x :: listUpsert p b xs
        exact congrArg (List.cons x) ih

/-- The blocks list after the ledger upsert, in listUpsert form. -/
lemma set_block_status_blocks (rs : RunStatus) (b : BlockStatus) :
    (rs.set_block_status b).blocks =
      listUpsert (fun s => s.same_key b) b rs.blocks := by
  rw [← upsert_eq]
  unfold RunStatus.set_block_status
  cases rs.blocks.findIdx? (fun s => s.same_key b) <;> rfl

/-- Upserting into a list with no match appends at the end. -/
lemma listUpsert_of_no_match {α : Type} {p : α → Bool} {b : α} {l : List α}
    (h : ∀ x ∈ l, p x = false) : listUpsert p b l = l ++ [b] := by
  induction l with
  | nil => rfl
  | cons x xs ih =>
    have hx := h x (List.mem_cons_self x xs)
    simp [listUpsert, hx, ih (fun y hy => h y (List.mem_cons_of_mem x hy))]

/-- Every element of an upserted list is the new element or an old one. -/
lemma mem_listUpsert {α : Type} {p : α → Bool} {b x : α} {l : List α}
    (h : x ∈ listUpsert p b l) : x = b ∨ x ∈ l := by
  induction l with
  | nil => simpa [listUpsert] using h
  | cons y ys ih =>
    by_cases hy : p y
    · simp only [listUpsert, hy, if_true, List.mem_cons] at h
      rcases h with h | h
      · exact Or.inl h
      · exact Or.inr (List.mem_cons_of_mem y h)
    · simp only [listUpsert, hy, Bool.false_eq_true, if_false, List.mem_cons] at h
      rcases h with h | h
      · exact Or.inr (h ▸ List.mem_cons_self y ys)
      · rcases ih h with h | h
        · exact Or.inl h
        · exact Or.inr (List.mem_cons_of_mem y h)

/-- Upserting twice with matching elements into a list holding at most
one match leaves exactly the second element as the matching content. -/
lemma filter_listUpsert_twice {α : Type} {p : α → Bool} {b1 b2 : α} {l : List α}
    (h1 : p b1 = true) (h2 : p b2 = true) (hcount : l.countP p ≤ 1) :
    (listUpsert p b2 (listUpsert p b1 l)).filter p = [b2] := by
  induction l with
  | nil => simp [listUpsert, h1, h2]
  | cons x xs ih =>
    by_cases hx : p x
    · have hnil : xs.filter p = [] := by
        simp [List.countP_cons, hx] at hcount
        exact List.filter_eq_nil_iff.mpr (by simpa using hcount)
      simp [listUpsert, hx, h1, h2, hnil]
    · have hcount2 : xs.countP p ≤ 1 := by
        simpa [List.countP_cons, hx] using hcount
      simp [listUpsert, hx, ih hcount2]

/-- C2 counterexample: on a ledger already holding two entries with the
same (block_type, name) key — a state the RunStatus type admits — two
same-key upserts leave two entries for that key, not exactly one. -/
theorem set_block_status_counterexample :
    (((RunStatus.mk Status.running
        [BlockStatus.mk BlockType.llm "x" Status.running 0 0,
         BlockStatus.mk BlockType.llm "x" Status.running 0 0]).set_block_status
          (BlockStatus.mk BlockType.llm "x" Status.succeeded 1 0)).set_block_status
          (BlockStatus.mk BlockType.llm "x" Status.succeeded 2 0)).blocks.countP
      (fun s => s.same_key (BlockStatus.mk BlockType.llm "x" Status.succeeded 2 0)) = 2 := by
  decide

/-- C2 (amended): set_block_status is an upsert keyed by (block_type,
name): when a first matching position i exists, the entry there is
replaced in place by the argument with the length and every other
position unchanged; with no matching entry the argument is appended at
the end. When the ledger holds at most one entry per key — the
documented ledger invariant — calling it twice with the same key leaves
exactly one entry for that key, holding the values of the second call. -/
theorem set_block_status_upsert (rs : RunStatus) (b b1 b2 : BlockStatus) :
    (∀ i, rs.blocks.findIdx? (fun s => s.same_key b) = some i →
      ((rs.set_block_status b).blocks.length = rs.blocks.length ∧
       (rs.set_block_status b).blocks[i]? = some b ∧
       ∀ j, j ≠ i → (rs.set_block_status b).blocks[j]? = rs.blocks[j]?)) ∧
    ((∀ s ∈ rs.blocks, s.same_key b = false) →
      (rs.set_block_status b).blocks = rs.blocks ++ [b]) ∧
    (b1.block_type = b2.block_type → b1.name = b2.name →
      rs.blocks.countP (fun s => s.same_key b2) ≤ 1 →
      ((rs.set_block_status b1).set_block_status b2).blocks.filter
        (fun s => s.same_key b2) = [b2]) := by
  refine ⟨?_, ?_, ?_⟩
  · intro i hi
    have hb : (rs.set_block_status b).blocks = rs.blocks.set i b := by
      unfold RunStatus.set_block_status
      rw [hi]
    rw [hb]
    exact ⟨List.length_set _ _ _,
      List.getElem?_set_self (findIdx?_some_lt hi),
      fun j hj => List.getElem?_set_ne hj.symm⟩
  · intro hno
    rw [set_block_status_blocks]
    exact listUpsert_of_no_match hno
  · intro hbt hname hcount
    have hpred : (fun s : BlockStatus => s.same_key b1) =
        fun s : BlockStatus => s.same_key b2 := by
      funext s
      simp [BlockStatus.same_key, hbt, hname]
    rw [set_block_status_blocks, set_block_status_blocks, hpred]
    refine filter_listUpsert_twice ?_ ?_ hcount
    · simp only [BlockStatus.same_key, decide_eq_true_eq]
      exact ⟨hbt, hname⟩
    · simp [BlockStatus.same_key]

/-- C2 witness: the amended upsert evaluated on a singleton ledger for
the key (LLM, "x"): replacement happens in place at position 0, and a
second same-key call leaves exactly the second call's entry. -/
theorem set_block_status_upsert_witness :
    ((RunStatus.mk Status.running
        [BlockStatus.mk BlockType.llm "x" Status.running 0 0]).set_block_status
        (BlockStatus.mk BlockType.llm "x" Status.succeeded 1 0)).blocks[0]? =
      some (BlockStatus.mk BlockType.llm "x" Status.succeeded 1 0) ∧
    (((RunStatus.mk Status.running
        [BlockStatus.mk BlockType.llm "x" Status.running 0 0]).set_block_status
        (BlockStatus.mk BlockType.llm "x" Status.succeeded 1 0)).set_block_status
        (BlockStatus.mk BlockType.llm "x" Status.succeeded 2 0)).blocks.filter
      (fun s => s.same_key (BlockStatus.mk BlockType.llm "x" Status.succeeded 2 0)) =
      [BlockStatus.mk BlockType.llm "x" Status.succeeded 2 0] :=
  ⟨((set_block_status_upsert
      (RunStatus.mk Status.running
        [BlockStatus.mk BlockType.llm "x" Status.running 0 0])
      (BlockStatus.mk BlockType.llm "x" Status.succeeded 1 0)
      (BlockStatus.mk BlockType.llm "x" Status.succeeded 1 0)
      (BlockStatus.mk BlockType.llm "x" Status.succeeded 2 0)).1 0 (by decide)).2.1,
   (set_block_status_upsert
      (RunStatus.mk Status.running
        [BlockStatus.mk BlockType.llm "x" Status.running 0 0])
      (BlockStatus.mk BlockType.llm "x" Status.succeeded 1 0)
      (BlockStatus.mk BlockType.llm "x" Status.succeeded 1 0)
      (BlockStatus.mk BlockType.llm "x" Status.succeeded 2 0)).2.2 rfl rfl (by decide)⟩

/-- C4 counterexample: the empty Running ledger satisfies the
errored-implies-errored invariant, yet upserting an Errored block status
leaves an Errored entry under a still-Running run-level status. -/
theorem errored_invariant_counterexample :
    erroredInv (RunStatus.mk Status.running []) ∧
    ¬ erroredInv ((RunStatus.mk Status.running []).set_block_status
        (BlockStatus.mk BlockType.llm "x" Status.errored 0 1)) := by
  decide

/-- C4 (amended): the ledger operations preserve the invariant "some
Errored entry implies an Errored run-level status" only under provisos:
set_block_status when the upserted status is not Errored or the
run-level status is already Errored, and set_run_status when the new
status is Errored or no ledger entry is Errored. Without these provisos
the pure-record ledger does not preserve the invariant; the external
driver owns it. -/
theorem errored_invariant_conditional (rs : RunStatus) :
    (∀ b : BlockStatus, erroredInv rs →
      (b.status ≠ Status.errored ∨ rs.run = Status.errored) →
      erroredInv (rs.set_block_status b)) ∧
    (∀ s : Status, erroredInv rs →
      (s = Status.errored ∨ ∀ b ∈ rs.blocks, b.status ≠ Status.errored) →
      erroredInv (rs.set_run_status s)) := by
  constructor
  · intro b hinv hside hex
    rcases hex with ⟨x, hx, hxe⟩
    rw [set_block_status_blocks] at hx
    rw [set_block_status_run]
    rcases mem_listUpsert hx with rfl | hxold
    · rcases hside with hbs | hre
      · exact absurd hxe hbs
      · exact hre
    · exact hinv ⟨x, hxold, hxe⟩
  · intro s hinv hside hex
    rcases hex with ⟨x, hx, hxe⟩
    rcases hside with rfl | hnone
    · rfl
    · exact absurd hxe (hnone x hx)

/-- C4 witness: the conditional preservation applied to an Errored run
receiving an Errored block entry, and to a Running run with one
Succeeded entry being set to Errored. -/
theorem errored_invariant_conditional_witness :
    erroredInv ((RunStatus.mk Status.errored []).set_block_status
      (BlockStatus.mk BlockType.llm "x" Status.errored 0 1)) ∧
    erroredInv ((RunStatus.mk Status.running
      [BlockStatus.mk BlockType.llm "x" Status.succeeded 1 0]).set_run_status
        Status.errored) :=
  ⟨(errored_invariant_conditional (RunStatus.mk Status.errored [])).1
      (BlockStatus.mk BlockType.llm "x" Status.errored 0 1) (by decide) (Or.inr rfl),
   (errored_invariant_conditional (RunStatus.mk Status.running
      [BlockStatus.mk BlockType.llm "x" Status.succeeded 1 0])).2
      Status.errored (by decide) (Or.inl rfl)⟩

/-- Existence over an enumerated list is existence over the list. -/
lemma exists_mem_enum {α : Type} {l : List α} {q : α → Prop} :
    (∃ p ∈ l.enum, q p.2) ↔ ∃ a ∈ l, q a := by
  constructor
  · rintro ⟨p, hp, hq⟩
    refine ⟨p.2, ?_, hq⟩
    have hmem : p.2 ∈ l.enum.map Prod.snd := List.mem_map_of_mem Prod.snd hp
    rwa [List.enum_map_snd] at hmem
  · rintro ⟨a, ha, hq⟩
    have hmem : a ∈ l.enum.map Prod.snd := by rwa [List.enum_map_snd]
    rcases List.mem_map.mp hmem with ⟨p, hp, hpa⟩
    exact ⟨p, hp, hpa ▸ hq⟩

/-- A nonempty test on a list, in propositional form. -/
lemma bang_isEmpty_eq_true_iff {α : Type} {l : List α} : (!l.isEmpty) = true ↔ l ≠ [] := by
  cases l <;> simp

/-- The trace-entry key comparison of cmd_inspect, as a pair equality. -/
lemma key_eq_iff {e : (BlockType × String) × List (List BlockExecution)}
    {bt : BlockType} {name : String} :
    (e.1.2 = name ∧ e.1.1 = bt) ↔ e.1 = (bt, name) := by
  constructor
  · rintro ⟨h2, h1⟩
    exact Prod.ext_iff.mpr ⟨h1, h2⟩
  · intro h
    rw [h]
    exact ⟨rfl, rfl⟩

/-- A value event occurs in a lane's output iff the lane holds that
value. -/
lemma value_mem_laneEvents {i il j jl : Nat} {ex : BlockExecution} {v : Value} :
    InspectEvent.value v ∈ laneEvents i il j jl ex ↔ ex.value = some v := by
  cases hv : ex.value <;> cases he : ex.error <;> simp [laneEvents, hv, he, eq_comm]

/-- An error event occurs in a lane's output iff the lane holds that
error message. -/
lemma error_mem_laneEvents {i il j jl : Nat} {ex : BlockExecution} {m : String} :
    InspectEvent.errorMsg m ∈ laneEvents i il j jl ex ↔ ex.error = some m := by
  cases hv : ex.value <;> cases he : ex.error <;> simp [laneEvents, hv, he, eq_comm]

/-- Membership in the output of one input index, reduced through the
per-lane characterization `hq`. -/
lemma mem_inputEvents_iff {i il : Nat} {mes : List BlockExecution}
    {ev : InspectEvent} (q : BlockExecution → Prop)
    (hq : ∀ a b c d ex, ev ∈ laneEvents a b c d ex ↔ q ex) :
    ev ∈ inputEvents i il mes ↔ ∃ ex ∈ mes, q ex := by
  unfold inputEvents
  rw [List.mem_flatMap]
  simp only [hq]
  exact exists_mem_enum

/-- Membership in the output of one trace entry, reduced through the
per-lane characterization `hq`. -/
lemma mem_entryEvents_iff {ies : List (List BlockExecution)}
    {ev : InspectEvent} (q : BlockExecution → Prop)
    (hq : ∀ a b c d ex, ev ∈ laneEvents a b c d ex ↔ q ex) :
    ev ∈ entryEvents ies ↔ ∃ ie ∈ ies, ∃ ex ∈ ie, q ex := by
  unfold entryEvents
  rw [List.mem_flatMap]
  simp only [mem_inputEvents_iff q hq]
  exact @exists_mem_enum (List BlockExecution) ies (fun ie => ∃ ex ∈ ie, q ex)

/-- Membership in the full trace scan output, reduced through the
per-lane characterization `hq`: an event is emitted iff some execution
under a matching key satisfies it. -/
lemma mem_traceEvents_iff {bt : BlockType} {name : String}
    {traces : List ((BlockType × String) × List (List BlockExecution))}
    {ev : InspectEvent} (q : BlockExecution → Prop)
    (hq : ∀ a b c d ex, ev ∈ laneEvents a b c d ex ↔ q ex) :
    ev ∈ traceEvents bt name traces ↔
      ∃ e ∈ traces, e.1 = (bt, name) ∧ ∃ ie ∈ e.2, ∃ ex ∈ ie, q ex := by
  unfold traceEvents
  rw [List.mem_flatMap]
  constructor
  · rintro ⟨e, he, hv⟩
    by_cases hc : e.1.2 = name ∧ e.1.1 = bt
    · rw [if_pos hc] at hv
      exact ⟨e, he, key_eq_iff.mp hc, (mem_entryEvents_iff q hq).mp hv⟩
    · rw [if_neg hc] at hv
      exact absurd hv (List.not_mem_nil ev)
  · rintro ⟨e, he, hkey, hv⟩
    refine ⟨e, he, ?_⟩
    rw [if_pos (key_eq_iff.mpr hkey)]
    exact (mem_entryEvents_iff q hq).mpr hv

/-- The found flag of the trace scan is set exactly on the existence of
an execution lane under a matching key. -/
lemma foundFlag_iff {bt : BlockType} {name : String}
    {traces : List ((BlockType × String) × List (List BlockExecution))} :
    foundFlag bt name traces = true ↔ hasMatchingExec bt name traces := by
  unfold foundFlag hasMatchingExec
  rw [List.any_eq_true]
  constructor
  · rintro ⟨e, he, hcond⟩
    rw [Bool.and_eq_true] at hcond
    rcases hcond with ⟨hk, hany⟩
    refine ⟨e, he, key_eq_iff.mp (of_decide_eq_true hk), ?_⟩
    rw [List.any_eq_true] at hany
    rcases hany with ⟨ie, hie, hne⟩
    exact ⟨ie, hie, bang_isEmpty_eq_true_iff.mp hne⟩
  · rintro ⟨e, he, hkey, ie, hie, hne⟩
    refine ⟨e, he, ?_⟩
    rw [Bool.and_eq_true]
    refine ⟨decide_eq_true (key_eq_iff.mpr hkey), ?_⟩
    rw [List.any_eq_true]
    exact ⟨ie, hie, bang_isEmpty_eq_true_iff.mpr hne⟩

/-- C3 counterexample: a trace matrix holding an entry keyed exactly by
the requested (LLM, "gen") but with no executions — cmd_inspect's scan
still fails with the block-not-found error, although a matching entry
exists. -/
theorem inspect_empty_entry_counterexample :
    (∃ e ∈ [((BlockType.llm, "gen"), ([] : List (List BlockExecution)))],
      e.1 = (BlockType.llm, "gen")) ∧
    inspectRunTraces BlockType.llm "gen" "r0"
        [((BlockType.llm, "gen"), [])] =
      Except.error (InspectError.blockNotFound BlockType.llm "gen" "r0") :=
  ⟨⟨((BlockType.llm, "gen"), []), List.mem_cons_self _ _, rfl⟩, rfl⟩

/-- C3 (amended): the trace scan of cmd_inspect on a loaded run fails
with the NotFound-class error naming the block and the run id if and
only if the trace matrix holds no execution under an entry keyed by the
requested (block_type, block_name) — in particular a matching entry with
no execution lanes also fails. When some execution exists under a
matching key, the scan succeeds and its output renders exactly the
present values, reports exactly the present errors, and reports neither
for a lane with both absent. -/
theorem inspect_block_not_found (bt : BlockType) (name run_id : String)
    (traces : List ((BlockType × String) × List (List BlockExecution))) :
    (inspectRunTraces bt name run_id traces =
        Except.error (InspectError.blockNotFound bt name run_id) ↔
      ¬ hasMatchingExec bt name traces) ∧
    (hasMatchingExec bt name traces →
      inspectRunTraces bt name run_id traces =
        Except.ok (traceEvents bt name traces) ∧
      (∀ v, InspectEvent.value v ∈ traceEvents bt name traces ↔
        ∃ e ∈ traces, e.1 = (bt, name) ∧ ∃ ie ∈ e.2, ∃ ex ∈ ie,
          ex.value = some v) ∧
      (∀ m, InspectEvent.errorMsg m ∈ traceEvents bt name traces ↔
        ∃ e ∈ traces, e.1 = (bt, name) ∧ ∃ ie ∈ e.2, ∃ ex ∈ ie,
          ex.error = some m)) := by
  constructor
  · unfold inspectRunTraces
    by_cases h : foundFlag bt name traces
    · rw [if_pos h]
      have hm := foundFlag_iff.mp h
      simp [hm]
    · rw [if_neg h]
      have hm : ¬ hasMatchingExec bt name traces :=
        fun hc => h (foundFlag_iff.mpr hc)
      simp [hm]
  · intro hm
    refine ⟨?_, ?_, ?_⟩
    · unfold inspectRunTraces
      rw [if_pos (foundFlag_iff.mpr hm)]
    · intro v
      exact mem_traceEvents_iff (fun ex => ex.value = some v)
        (fun a b c d ex => value_mem_laneEvents)
    · intro m
      exact mem_traceEvents_iff (fun ex => ex.error = some m)
        (fun a b c d ex => error_mem_laneEvents)

/-- C3 witness: the spec's worked example block (LLM, "gen") with one
successful lane — the scan succeeds and the value "a" is rendered. -/
theorem inspect_block_not_found_witness :
    inspectRunTraces BlockType.llm "gen" "r0"
        [((BlockType.llm, "gen"),
          [[BlockExecution.mk (some (Value.str "a")) none]])] =
      Except.ok (traceEvents BlockType.llm "gen"
        [((BlockType.llm, "gen"),
          [[BlockExecution.mk (some (Value.str "a")) none]])]) ∧
    InspectEvent.value (Value.str "a") ∈ traceEvents BlockType.llm "gen"
        [((BlockType.llm, "gen"),
          [[BlockExecution.mk (some (Value.str "a")) none]])] := by
  have h := (inspect_block_not_found BlockType.llm "gen" "r0"
      [((BlockType.llm, "gen"),
        [[BlockExecution.mk (some (Value.str "a")) none]])]).2
    ⟨((BlockType.llm, "gen"), [[BlockExecution.mk (some (Value.str "a")) none]]),
      List.mem_cons_self _ _, rfl,
      [BlockExecution.mk (some (Value.str "a")) none],
      List.mem_cons_self _ _, List.cons_ne_nil _ _⟩
  refine ⟨h.1, (h.2.1 (Value.str "a")).mpr ?_⟩
  exact ⟨((BlockType.llm, "gen"), [[BlockExecution.mk (some (Value.str "a")) none]]),
    List.mem_cons_self _ _, rfl,
    [BlockExecution.mk (some (Value.str "a")) none], List.mem_cons_self _ _,
    BlockExecution.mk (some (Value.str "a")) none, List.mem_cons_self _ _, rfl⟩
